import Mathlib

/-!
Verification of the conversational-backend core: a shallow embedding of the
middleware pipeline (tool-error translation, output guardrails, citation
guardrails), the streaming chat handler, the SSE client retry loop (with a
faithful model of the tenacity retry machinery it drives), the tool-adapter
HTTP request retry loops, and the worker-agent wrapper tools, together with
theorems about the behaviour of these components.

Python strings are embedded as Lean `String`; machine floats as exact
rationals (`PyNum`, and `Rat` for retry waits — the numeric comparisons
proved here never sit on a binary-rounding boundary); exceptions as
explicit outcome constructors; and async generators as functions from a
trace of upstream outcomes to the list of emitted events.
-/

/-! ## String utilities (Python `str` operations used by the middleware) -/

/-- ASCII lowercase of a string, modelling Python `str.lower` on the ASCII
inputs that appear in the guardrail vocabulary. -/
def strLower (s : String) : String := ⟨s.data.map Char.toLower⟩

/-- `listStarts needle hay`: `hay` begins with `needle` (exact chars). -/
def listStarts : List Char → List Char → Bool
| [], _ => true
| _ :: _, [] => false
| a :: as, b :: bs => a == b && listStarts as bs

/-- `listStartsCI needle hay`: case-insensitive `listStarts` (regex
`re.IGNORECASE` on ASCII letters). -/
def listStartsCI : List Char → List Char → Bool
| [], _ => true
| _ :: _, [] => false
| a :: as, b :: bs => a.toLower == b.toLower && listStartsCI as bs

/-- `listHasSub needle hay`: `needle` occurs contiguously in `hay`. -/
def listHasSub (needle : List Char) : List Char → Bool
| [] => listStarts needle []
| c :: rest => listStarts needle (c :: rest) || listHasSub needle rest

/-- Python `needle in hay` for strings: contiguous substring test. -/
def strHas (hay needle : String) : Bool := listHasSub needle.data hay.data

/-- ASCII whitespace, modelling regex `\s` and JSON whitespace on the
inputs in scope. -/
def isWsChar (c : Char) : Bool := c == ' ' || c == '\t' || c == '\n' || c == '\r'

/-- Drop the leading whitespace run (regex `\s*` consumed greedily). -/
def skipWs : List Char → List Char
| [] => []
| c :: rest => if isWsChar c then skipWs rest else c :: rest

/-- Split off the leading run of decimal digits. -/
def takeDigits : List Char → List Char × List Char
| [] => ([], [])
| c :: rest =>
  if c.isDigit then
    let p := takeDigits rest
    (c :: p.1, p.2)
  else ([], c :: rest)

/-- Value of a digit run. -/
def digitsVal (ds : List Char) : Nat := ds.foldl (fun n c => 10 * n + (c.toNat - 48)) 0

/-! ## Exact numbers

The numeric values flowing through the guardrails (JSON numbers, regex
captures) are Python floats; the comparisons proved here never sit on a
binary-rounding boundary, so they are embedded as exact rationals. An
unnormalized fraction keeps every operation a plain `Int`/`Nat`
computation. -/

/-- An exact rational `num / den` (`den` is always a positive power of
ten here), left unnormalized. -/
structure PyNum where
  num : Int
  den : Nat
deriving Repr, DecidableEq

/-- Embed an integer. -/
def pnInt (n : Int) : PyNum := ⟨n, 1⟩

/-- `digits / 10 ^ pow`, e.g. a decimal fraction part. -/
def pnFrac (digits pow : Nat) : PyNum := ⟨(digits : Int), 10 ^ pow⟩

/-- Addition. -/
def pnAdd (a b : PyNum) : PyNum := ⟨a.num * b.den + b.num * a.den, a.den * b.den⟩

/-- Negation. -/
def pnNeg (a : PyNum) : PyNum := ⟨-a.num, a.den⟩

/-- Subtraction. -/
def pnSub (a b : PyNum) : PyNum := pnAdd a (pnNeg b)

/-- Absolute value. -/
def pnAbs (a : PyNum) : PyNum := ⟨(a.num.natAbs : Int), a.den⟩

/-- Multiplication by `10 ^ e`. -/
def pnMulPow10 (a : PyNum) (e : Nat) : PyNum := ⟨a.num * ((10 ^ e : Nat) : Int), a.den⟩

/-- Division by `10 ^ e`. -/
def pnDivPow10 (a : PyNum) (e : Nat) : PyNum := ⟨a.num, a.den * 10 ^ e⟩

/-- Numeric strict order (the denominators are positive). -/
def pnLtB (a b : PyNum) : Bool := a.num * (b.den : Int) < b.num * (a.den : Int)

/-- Numeric equality (the denominators are positive). -/
def pnEqB (a b : PyNum) : Bool := a.num * (b.den : Int) == b.num * (a.den : Int)

/-! ## JSON values and a parser modelling Python `json.loads`

The tool results inspected by the guardrails are JSON object strings; the
middleware parses them with `json.loads` and reads individual fields. The
model below parses the JSON grammar those tool results use (objects,
arrays, strings with the simple escapes, numbers, booleans, null); numbers
are kept exactly as `PyNum`. A parse failure models `json.JSONDecodeError`. -/

inductive JValue where
| jnull
| jbool (b : Bool)
| jnum (q : PyNum)
| jstr (s : String)
| jarr (items : List JValue)
| jobj (fields : List (String × JValue))
deriving Inhabited

/-- The `{` character, written by code point. -/
def braceL : Char := Char.ofNat 123

/-- The `}` character, written by code point. -/
def braceR : Char := Char.ofNat 125

/-- Body of a JSON string literal after the opening quote: the decoded
characters and the remainder after the closing quote. -/
def jstringChars : List Char → Option (List Char × List Char)
| [] => none
| c :: rest =>
  if c == '"' then some ([], rest)
  else if c == '\\' then
    match rest with
    | [] => none
    | e :: rest2 =>
      let dec : Option Char :=
        if e == '"' then some '"'
        else if e == '\\' then some '\\'
        else if e == '/' then some '/'
        else if e == 'b' then some (Char.ofNat 8)
        else if e == 'f' then some (Char.ofNat 12)
        else if e == 'n' then some '\n'
        else if e == 'r' then some '\r'
        else if e == 't' then some '\t'
        else none
      match dec with
      | some d => (jstringChars rest2).map (fun p => (d :: p.1, p.2))
      | none => none
  else (jstringChars rest).map (fun p => (c :: p.1, p.2))

/-- Optional JSON exponent part applied to a parsed mantissa. -/
def jexpPart (v : PyNum) (cs : List Char) : Option (PyNum × List Char) :=
  match cs with
  | e :: rest =>
    if e == 'e' || e == 'E' then
      let signAndRest : Bool × List Char :=
        match rest with
        | '-' :: r2 => (true, r2)
        | '+' :: r2 => (false, r2)
        | _ => (false, rest)
      match takeDigits signAndRest.2 with
      | ([], _) => none
      | (ds, r3) =>
        some (if signAndRest.1 then pnDivPow10 v (digitsVal ds)
              else pnMulPow10 v (digitsVal ds), r3)
    else some (v, cs)
  | [] => some (v, cs)

/-- JSON number: `-?digits(.digits)?([eE][+-]?digits)?`, exactly. -/
def jnumberAt (cs : List Char) : Option (JValue × List Char) :=
  let negAndRest : Bool × List Char :=
    match cs with
    | '-' :: r => (true, r)
    | _ => (false, cs)
  match takeDigits negAndRest.2 with
  | ([], _) => none
  | (ds, rest) =>
    let intPart : PyNum := pnInt (digitsVal ds)
    let withFrac : Option (PyNum × List Char) :=
      match rest with
      | '.' :: r2 =>
        match takeDigits r2 with
        | ([], _) => none
        | (fs, r3) => some (pnAdd intPart (pnFrac (digitsVal fs) fs.length), r3)
      | _ => some (intPart, rest)
    match withFrac with
    | none => none
    | some p =>
      (jexpPart p.1 p.2).map (fun q => (JValue.jnum (if negAndRest.1 then pnNeg q.1 else q.1), q.2))

mutual

/-- Parse one JSON value (fuel-bounded recursion). -/
def jparseVal : Nat → List Char → Option (JValue × List Char)
| 0, _ => none
| Nat.succ fuel, cs =>
  match skipWs cs with
  | [] => none
  | c :: rest =>
    if c == 'n' then
      if listStarts "ull".data rest then some (JValue.jnull, rest.drop 3) else none
    else if c == 't' then
      if listStarts "rue".data rest then some (JValue.jbool true, rest.drop 3) else none
    else if c == 'f' then
      if listStarts "alse".data rest then some (JValue.jbool false, rest.drop 4) else none
    else if c == '"' then
      (jstringChars rest).map (fun p => (JValue.jstr ⟨p.1⟩, p.2))
    else if c == '[' then
      match skipWs rest with
      | ']' :: r2 => some (JValue.jarr [], r2)
      | r2 => (jparseItems fuel r2).map (fun p => (JValue.jarr p.1, p.2))
    else if c == braceL then
      match skipWs rest with
      | b :: r2 =>
        if b == braceR then some (JValue.jobj [], r2)
        else (jparseFields fuel (b :: r2)).map (fun p => (JValue.jobj p.1, p.2))
      | [] => none
    else jnumberAt (c :: rest)

/-- Parse the comma-separated items of a JSON array up to `]`. -/
def jparseItems : Nat → List Char → Option (List JValue × List Char)
| 0, _ => none
| Nat.succ fuel, cs =>
  match jparseVal fuel cs with
  | none => none
  | some p =>
    match skipWs p.2 with
    | ',' :: r2 => (jparseItems fuel r2).map (fun q => (p.1 :: q.1, q.2))
    | ']' :: r2 => some ([p.1], r2)
    | _ => none

/-- Parse the comma-separated `"key": value` fields of a JSON object up to `}`. -/
def jparseFields : Nat → List Char → Option (List (String × JValue) × List Char)
| 0, _ => none
| Nat.succ fuel, cs =>
  match skipWs cs with
  | '"' :: r1 =>
    match jstringChars r1 with
    | none => none
    | some kp =>
      match skipWs kp.2 with
      | ':' :: r2 =>
        match jparseVal fuel r2 with
        | none => none
        | some vp =>
          match skipWs vp.2 with
          | ',' :: r3 => (jparseFields fuel r3).map (fun q => ((⟨kp.1⟩, vp.1) :: q.1, q.2))
          | b :: r3 =>
            if b == braceR then some ([(⟨kp.1⟩, vp.1)], r3) else none
          | [] => none
      | _ => none
  | _ => none

end

/-- Python `json.loads`: parse the whole string or fail. -/
def jsonLoads (s : String) : Option JValue :=
  match jparseVal (2 * s.data.length + 2) s.data with
  | some p => if skipWs p.2 == [] then some p.1 else none
  | none => none

/-- `dict.get` on a parsed JSON object: the last binding wins, matching
Python dict construction from duplicate keys. -/
def jlookup (fields : List (String × JValue)) (key : String) : Option JValue :=
  fields.foldl (fun acc f => if f.1 == key then some f.2 else acc) none

/-! ## Numeric-claim scanners (`output_guardrails.py` regex patterns)

`re.search` semantics are embedded directly: scan match positions left to
right, at each position try the pattern with its backtracking order, and
return the first capture-group value. Each pattern's backtracking is
resolved below into the deterministic order the regex engine follows
(greedy digits/whitespace never shrink usefully for these patterns, so
only the optional fraction and the optional literal alternatives branch). -/

/-- The matches of `\d+(?:\.\d+)?` at the head of the input, in the regex
engine's preference order: the greedy parse with the optional fraction
first, then the integer-only alternative. Each entry is the captured
value and the remaining input. -/
def numMatches (cs : List Char) : List (PyNum × List Char) :=
  match takeDigits cs with
  | ([], _) => []
  | (ds, rest) =>
    let intVal : PyNum := pnInt (digitsVal ds)
    match rest with
    | '.' :: rest2 =>
      match takeDigits rest2 with
      | ([], _) => [(intVal, rest)]
      | (fs, rest3) =>
        [(pnAdd intVal (pnFrac (digitsVal fs) fs.length), rest3), (intVal, rest)]
    | _ => [(intVal, rest)]

/-- Head of `numMatches`: the capture when nothing after it can fail. -/
def numHere (cs : List Char) : Option PyNum := (numMatches cs).head?.map Prod.fst

/-- Pattern `\$(\d+(?:\.\d+)?)` tried at the current position. -/
def dollarNumAt : List Char → Option PyNum
| '$' :: rest => numHere rest
| _ => none

/-- `re.search` for `\$(\d+(?:\.\d+)?)`. -/
def findDollarNum : List Char → Option PyNum
| [] => none
| c :: rest =>
  match dollarNumAt (c :: rest) with
  | some v => some v
  | none => findDollarNum rest

/-- Tail `\s*\$?(\d+(?:\.\d+)?)` of the `price ...` pattern. -/
def numAfterOptDollar (cs : List Char) : Option PyNum :=
  let a := skipWs cs
  match a with
  | '$' :: r => numHere r
  | _ => numHere a

/-- Tail `\s*(?:is|of)?\s*\$?(\d+(?:\.\d+)?)` after the literal `price`,
with the regex alternation order `is`, `of`, empty. -/
def priceTailAt (cs : List Char) : Option PyNum :=
  let a := skipWs cs
  let viaIs := if listStartsCI "is".data a then numAfterOptDollar (a.drop 2) else none
  let viaOf := if listStartsCI "of".data a then numAfterOptDollar (a.drop 2) else none
  ((viaIs.orElse fun _ => viaOf).orElse fun _ => numAfterOptDollar a)

/-- `re.search` for `price\s*(?:is|of)?\s*\$?(\d+(?:\.\d+)?)` (IGNORECASE). -/
def findPriceWord : List Char → Option PyNum
| [] => none
| c :: rest =>
  if listStartsCI "price".data (c :: rest) then
    match priceTailAt ((c :: rest).drop 5) with
    | some v => some v
    | none => findPriceWord rest
  else findPriceWord rest

/-- Tail `\s*(?:usd|dollars?)` after the number capture. -/
def usdTail (cs : List Char) : Bool :=
  let b := skipWs cs
  listStartsCI "usd".data b || listStartsCI "dollar".data b

/-- Pattern `(\d+(?:\.\d+)?)\s*(?:usd|dollars?)` tried at the current
position, with the fraction backtracking of `numMatches`. -/
def numUsdAt (cs : List Char) : Option PyNum :=
  (numMatches cs).findSome? (fun p => if usdTail p.2 then some p.1 else none)

/-- `re.search` for `(\d+(?:\.\d+)?)\s*(?:usd|dollars?)` (IGNORECASE). -/
def findNumUsd : List Char → Option PyNum
| [] => none
| c :: rest =>
  match numUsdAt (c :: rest) with
  | some v => some v
  | none => findNumUsd rest

/-- `_find_price_in_text`: the three price patterns tried in order; the
first pattern that matches anywhere supplies the (single) value. -/
def findPriceInText (text : String) : Option PyNum :=
  match findDollarNum text.data with
  | some v => some v
  | none =>
    match findPriceWord text.data with
    | some v => some v
    | none => findNumUsd text.data

/-- Tail `\s*[°]?[cC]` (or `[fF]`) after the number capture. -/
def tempUnitTail (unit : Char) (cs : List Char) : Bool :=
  let b := skipWs cs
  let b2 := match b with
  | '°' :: r => r
  | _ => b
  match b2 with
  | c :: _ => c.toLower == unit
  | [] => false

/-- Pattern `(\d+(?:\.\d+)?)\s*[°]?[cC]` (or `[fF]`) at the current position. -/
def numUnitAt (unit : Char) (cs : List Char) : Option PyNum :=
  (numMatches cs).findSome? (fun p => if tempUnitTail unit p.2 then some p.1 else none)

/-- `re.search` for the degree patterns. -/
def findNumUnit (unit : Char) : List Char → Option PyNum
| [] => none
| c :: rest =>
  match numUnitAt unit (c :: rest) with
  | some v => some v
  | none => findNumUnit unit rest

/-- Tail `\s*(?:is|of)?\s*(\d+(?:\.\d+)?)` after the literal `temperature`. -/
def temperatureTailAt (cs : List Char) : Option PyNum :=
  let a := skipWs cs
  let viaIs := if listStartsCI "is".data a then numHere (skipWs (a.drop 2)) else none
  let viaOf := if listStartsCI "of".data a then numHere (skipWs (a.drop 2)) else none
  ((viaIs.orElse fun _ => viaOf).orElse fun _ => numHere (skipWs a))

/-- `re.search` for `temperature\s*(?:is|of)?\s*(\d+(?:\.\d+)?)`. -/
def findTemperatureWord : List Char → Option PyNum
| [] => none
| c :: rest =>
  if listStarts "temperature".data (c :: rest) then
    match temperatureTailAt ((c :: rest).drop 11) with
    | some v => some v
    | none => findTemperatureWord rest
  else findTemperatureWord rest

/-- `_find_temperature_in_text`: the three temperature patterns in order. -/
def findTemperatureInText (text : String) : Option PyNum :=
  match findNumUnit 'c' text.data with
  | some v => some v
  | none =>
    match findNumUnit 'f' text.data with
    | some v => some v
    | none => findTemperatureWord text.data

/-! ## Agent messages and guardrail findings -/

/-- The message shapes the `after_model` middlewares distinguish:
`AIMessage`, `ToolMessage` (with its `name` attribute, which langchain
allows to be absent), and everything else. -/
inductive Msg where
| human (content : String)
| ai (content : String)
| toolMsg (name : Option String) (content : String)
| otherMsg
deriving Repr, DecidableEq

/-- A guardrail finding, i.e. one `logger.warning` emission from the
guardrail middlewares. Findings are telemetry: nothing downstream consumes
them. -/
inductive Finding where
| weatherMismatch (expected found : PyNum)
| stockMismatch (expected found : PyNum)
| missingCitation
| fabricatedCitation (phrase : String)
deriving Repr, DecidableEq

/-! ## `output_guardrails.py` -/

/-- `PRICE_TOLERANCE`. -/
def PRICE_TOLERANCE : PyNum := ⟨1, 100⟩

/-- Python dict update `d[k] = v`: replace in place if the key exists
(keeping its position, as dict insertion order does), else append. -/
def dictInsert (k v : String) : List (String × String) → List (String × String)
| [] => [(k, v)]
| kv :: rest => if kv.1 == k then (k, v) :: rest else kv :: dictInsert k v rest

/-- `_extract_tool_results`: walk the turn's messages and collect the
content of each weather/stock `ToolMessage` into a dict keyed by tool
name — a later result for the same tool overwrites the earlier one. -/
def extract_tool_results (messages : List Msg) : List (String × String) :=
  messages.foldl
    (fun acc m =>
      match m with
      | .toolMsg (some n) c =>
        if n == "get_weather" || n == "get_stock_price" then dictInsert n c acc else acc
      | _ => acc)
    []

/-- `_extract_temperature_from_json`: `json.loads` then the `temperature`
field when it is a number (Python counts `bool` as `int`, hence the
`jbool` line). -/
def extract_temperature_from_json (content : String) : Option PyNum :=
  match jsonLoads content with
  | some (.jobj fields) =>
    match jlookup fields "temperature" with
    | some (.jnum q) => some q
    | some (.jbool b) => some (pnInt (if b then 1 else 0))
    | _ => none
  | _ => none

/-- `_extract_price_from_json`: likewise for the `price` field. -/
def extract_price_from_json (content : String) : Option PyNum :=
  match jsonLoads content with
  | some (.jobj fields) =>
    match jlookup fields "price" with
    | some (.jnum q) => some q
    | some (.jbool b) => some (pnInt (if b then 1 else 0))
    | _ => none
  | _ => none

/-- `_check_weather_hallucination`, returning the warning it would log. -/
def check_weather_hallucination (response toolResult : String) : List Finding :=
  if !strHas response "weather" && !strHas response "temperature" then []
  else
    match extract_temperature_from_json toolResult with
    | none => []
    | some t =>
      match findTemperatureInText response with
      | some f => if pnLtB (pnInt 1) (pnAbs (pnSub f t)) then [.weatherMismatch t f] else []
      | none => []

/-- `_check_stock_hallucination`, returning the warning it would log. -/
def check_stock_hallucination (response toolResult : String) : List Finding :=
  if !strHas response "stock" && !strHas response "price" then []
  else
    match extract_price_from_json toolResult with
    | none => []
    | some t =>
      match findPriceInText response with
      | some f => if pnLtB PRICE_TOLERANCE (pnAbs (pnSub f t)) then [.stockMismatch t f] else []
      | none => []

/-- The findings `output_guardrails` logs for a turn: nothing unless the
last message is a non-empty `AIMessage`; then each entry of the extracted
tool-result dict is cross-checked against the lowercased response. -/
def outputGuardrailFindings (messages : List Msg) : List Finding :=
  match messages.getLast? with
  | some (.ai content) =>
    if content == "" then []
    else
      let response := strLower content
      (extract_tool_results messages).foldl
        (fun acc kv =>
          if kv.1 == "get_weather" then acc ++ check_weather_hallucination response kv.2
          else if kv.1 == "get_stock_price" then acc ++ check_stock_hallucination response kv.2
          else acc)
        []
  | _ => []

/-- `output_guardrails` as an `after_model` hook: every branch returns
`None` (the checks only log), so no state update is ever produced. -/
def output_guardrails (messages : List Msg) : Option (List Msg) :=
  match messages.getLast? with
  | none => none
  | some (.ai content) =>
    if content == "" then none
    else
      -- the `tool_results` cross-checks (see `outputGuardrailFindings`) only log
      none
  | some _ => none

/-! ## `knowledge_guardrails.py` and `middleware/utils.py` -/

/-- `TOOL_KNOWLEDGE`. -/
def TOOL_KNOWLEDGE : String := "search_knowledge"

/-- `parse_json_content`: the parsed dict when the content is a JSON
object, else `None`. -/
def parse_json_content (content : String) : Option (List (String × JValue)) :=
  match jsonLoads content with
  | some (.jobj fields) => some fields
  | _ => none

/-- `_extract_knowledge_tool_results`: the parsed contents of the turn's
`search_knowledge` tool messages, in order. -/
def extract_knowledge_tool_results (messages : List Msg) : List (List (String × JValue)) :=
  messages.foldl
    (fun acc m =>
      match m with
      | .toolMsg (some n) c =>
        if n == TOOL_KNOWLEDGE then
          match parse_json_content c with
          | some d => acc ++ [d]
          | none => acc
        else acc
      | _ => acc)
    []

/-- `result.get("chunks", [])` with the list payload the knowledge tool
produces. -/
def chunksOf (result : List (String × JValue)) : List JValue :=
  match jlookup result "chunks" with
  | some (.jarr xs) => xs
  | _ => []

/-- `chunk.get("document_title", "")` for an object chunk. -/
def chunkTitle (chunk : JValue) : String :=
  match chunk with
  | .jobj fields =>
    match jlookup fields "document_title" with
    | some (.jstr s) => s
    | _ => ""
  | _ => ""

/-- The lowercased titles collected into `retrieved_titles` (Python uses a
set; only membership and non-emptiness are consumed, for which this list
is equivalent). `retrieved_pages` is also collected in the source but
never read, and is omitted. -/
def retrievedTitles (toolResults : List (List (String × JValue))) : List String :=
  toolResults.foldl
    (fun acc r =>
      (chunksOf r).foldl
        (fun acc2 ch =>
          let t := chunkTitle ch
          if t == "" then acc2 else acc2 ++ [strLower t])
        acc)
    []

/-- The fixed `title_indicators` vocabulary of
`_extract_document_titles_from_response`. -/
def titleIndicators : List String :=
  ["historia de veramoney", "regulacion fintech", "regulacion bancaria",
   "veramoney history", "fintech regulation", "banking regulation"]

/-- `_extract_document_titles_from_response`: the indicators present in
the (already lowercased) response. -/
def extract_document_titles_from_response (response : String) : List String :=
  titleIndicators.filter (fun ind => strHas response ind)

/-- The fuzzy title match: the mentioned phrase is a substring of a known
title or vice versa (both sides already lowercased). -/
def fuzzyKnown (mentioned : String) (known : List String) : Bool :=
  known.any (fun k => strHas k mentioned || strHas mentioned k)

/-- `_check_for_fabricated_citations`, returning the warnings it would
log: one `fabricated_citation` per mentioned phrase that matches no
retrieved title, provided some title was retrieved. -/
def check_for_fabricated_citations (response : String)
    (toolResults : List (List (String × JValue))) : List Finding :=
  let knowns := retrievedTitles toolResults
  ((extract_document_titles_from_response response).filter
      (fun m => !fuzzyKnown m knowns && !knowns.isEmpty)).map
    (fun m => Finding.fabricatedCitation m)

/-- `citation_indicators` of `_check_citation_presence`. -/
def citationIndicators : List String :=
  ["source", "fuente", "according to", "según", "documento", "document", "page", "página"]

/-- `_check_citation_presence`, returning the warning it would log. -/
def check_citation_presence (response : String)
    (toolResults : List (List (String × JValue))) : List Finding :=
  if !toolResults.any (fun r => !(chunksOf r).isEmpty) then []
  else if citationIndicators.any (fun i => strHas response i) then []
  else [.missingCitation]

/-- The findings `knowledge_guardrails` logs for a turn. -/
def knowledgeGuardrailFindings (messages : List Msg) : List Finding :=
  match messages.getLast? with
  | some (.ai content) =>
    if content == "" then []
    else
      let results := extract_knowledge_tool_results messages
      if results.isEmpty then []
      else
        let response := strLower content
        check_citation_presence response results ++
          check_for_fabricated_citations response results
  | _ => []

/-- `knowledge_guardrails` as an `after_model` hook: every branch returns
`None` (the checks only log), so no state update is ever produced. -/
def knowledge_guardrails (messages : List Msg) : Option (List Msg) :=
  match messages.getLast? with
  | none => none
  | some (.ai content) =>
    if content == "" then none
    else if (extract_knowledge_tool_results messages).isEmpty then none
    else
      -- `_check_citation_presence` / `_check_for_fabricated_citations` only log
      none
  | some _ => none

/-- Applying an `after_model` hook to the message state: a `None` return
leaves the state untouched; a returned update would be merged in. -/
def runAfterModelHook (hook : List Msg → Option (List Msg)) (messages : List Msg) : List Msg :=
  match hook messages with
  | none => messages
  | some updated => updated

/-! ## `tool_error_handler.py` -/

/-- The parts of a tool-call request the interceptor reads:
`request.tool_call["name"]`, `["args"]`, `["id"]`. -/
structure ToolCallRequest where
  toolName : String
  args : List (String × String)
  callId : String
deriving Repr, DecidableEq

/-- The fields of the `ToolMessage` the interceptor returns or forwards. -/
structure ToolMessageData where
  content : String
  toolCallId : String
deriving Repr, DecidableEq

/-- `TOOL_SERVICE_NAMES` of `tool_error_handler.py`. -/
def TOOL_SERVICE_NAMES : List (String × String) :=
  [("get_weather", "weather data"), ("get_stock_price", "stock market data")]

/-- `dict.get(key, default)` on a small literal dict. -/
def lookupDefault (d : List (String × String)) (k dflt : String) : String :=
  match d.find? (fun p => p.1 == k) with
  | some p => p.2
  | none => dflt

/-- The f-string `"I'm having trouble accessing {service_name} right now.
Please try again."`. -/
def toolErrorMessage (serviceName : String) : String :=
  "I\x27m having trouble accessing " ++ serviceName ++ " right now. Please try again."

/-- `tool_error_handler`: forward to the terminal handler; a raised
exception (its text only ever reaches the log) is replaced by a
`ToolMessage` carrying the fixed per-tool message and the original call
id. The wrapper itself never raises. -/
def tool_error_handler (request : ToolCallRequest)
    (handlerResult : Except String ToolMessageData) : ToolMessageData :=
  let serviceName := lookupDefault TOOL_SERVICE_NAMES request.toolName request.toolName
  match handlerResult with
  | .ok msg => msg
  | .error _ => { content := toolErrorMessage serviceName, toolCallId := request.callId }

/-! ## `tools/stock/tool.py` -/

/-- Outcome of `_fetch_stock_data(ticker)` as observed by
`get_stock_price`'s `try`/`except` clauses. The success payload is the
`model_dump_json()` string, carried opaquely. -/
inductive StockFetchOutcome where
| ok (payloadJson : String)
| invalidTicker
| httpStatusError (statusCode : Nat)
| timeoutError
| otherError
deriving Repr, DecidableEq

/-- `get_stock_price`: the string returned for each outcome of the fetch,
mirroring the `except` branches (the `httpx.HTTPStatusError` branch
embeds `http_error.response.status_code` into the message). -/
def get_stock_price (isConfigured : Bool) (ticker : String)
    (fetch : StockFetchOutcome) : String :=
  if !isConfigured then
    "\x7b\"error\": \"Stock tool not configured. Set ALPACA_API_KEY and ALPACA_SECRET_KEY environment variables.\"\x7d"
  else
    match fetch with
    | .ok payload => payload
    | .invalidTicker => "\x7b\"error\": \"Invalid ticker: " ++ ticker ++ "\"\x7d"
    | .httpStatusError code => "\x7b\"error\": \"Stock service error: " ++ toString code ++ "\"\x7d"
    | .timeoutError => "\x7b\"error\": \"Stock service unavailable. Please try again.\"\x7d"
    | .otherError => "\x7b\"error\": \"Failed to retrieve stock data.\"\x7d"

/-! ## `api/handlers/chat_stream.py` -/

/-- Server-sent events emitted by `ChatStreamHandler.handle`. -/
inductive SEvent where
| token (content : String)
| toolCall (tool : String) (args : String)
| toolResult (tool : Option String) (result : String)
| done
| errorEv (message : String)
deriving Repr, DecidableEq

/-- A message inside an `updates`-mode payload, as the handler inspects
it: whether it is a `ToolMessage`, its `name`, its content. -/
structure UpdateMsg where
  isToolMessage : Bool
  name : Option String
  content : String
deriving Repr, DecidableEq

/-- One chunk of `agent.astream(..., stream_mode=["messages", "updates"])`:
either a `messages` token (an `AIMessageChunk` or some other message type)
or an `updates` dict of `source -> messages`. -/
inductive StreamChunk where
| messagesChunk (isAIChunk : Bool) (content : String) (toolCalls : List (String × String))
| updatesChunk (updates : List (String × List UpdateMsg))
deriving Repr

/-- Concatenation of the event lists of a list of inputs. -/
def catMap (f : α → List β) : List α → List β
| [] => []
| a :: rest => f a ++ catMap f rest

/-- Events the handler yields for one `updates` entry: `tool_result` for
each `ToolMessage` under the `tools` source. -/
def eventsOfUpdate (su : String × List UpdateMsg) : List SEvent :=
  if su.1 == "tools" then
    catMap (fun m => if m.isToolMessage then [SEvent.toolResult m.name m.content] else []) su.2
  else []

/-- Events the handler yields for one stream chunk: a `token` event for a
non-empty `AIMessageChunk` content, one `tool_call` event per tool call,
and `tool_result` events for `updates` chunks. -/
def eventsOfChunk : StreamChunk → List SEvent
| .messagesChunk isAI content toolCalls =>
  if !isAI then []
  else
    (if content != "" then [SEvent.token content] else []) ++
      toolCalls.map (fun tc => SEvent.toolCall tc.1 tc.2)
| .updatesChunk updates => catMap eventsOfUpdate updates

/-- The fixed payload of the handler's `error` event. -/
def streamErrorMessage : String := "An error occurred during processing"

/-- `ChatStreamHandler.handle` over a trace: the agent stream yields
`chunks`; `failAfterChunks = some k` models an exception raised inside the
`try` block after `k` chunks were processed (`k` = number of chunks also
covers an exception in the post-loop bookkeeping), answered by the single
`error` event of the `except` clause; otherwise the handler ends with the
single `done` event. -/
def chatStreamHandle (chunks : List StreamChunk) (failAfterChunks : Option Nat) : List SEvent :=
  match failAfterChunks with
  | none => catMap eventsOfChunk chunks ++ [SEvent.done]
  | some k => catMap eventsOfChunk (chunks.take k) ++ [SEvent.errorEv streamErrorMessage]

/-- Terminal events of the stream protocol. -/
def isTerminalEvent : SEvent → Bool
| .done => true
| .errorEv _ => true
| _ => false

/-- The stream shape required by the protocol: non-empty, the last event
terminal, no terminal event before it. -/
def oneTerminalAtEnd : List SEvent → Bool
| [] => false
| [e] => isTerminalEvent e
| e :: rest => !isTerminalEvent e && oneTerminalAtEnd rest

/-! ## `chainlit/constants.py` and `chainlit/sse_client.py`

The client drives `tenacity.AsyncRetrying` by hand: it calls
`retry_iterator.__anext__()` and discards the yielded `AttemptManager`
without entering it, so `retry_state.outcome` is never recorded. The
tenacity step function is embedded faithfully below
(`sseRetryerStep`); the loop always invokes it with `outcome = none`. -/

/-- `BACKOFF_MULTIPLIER` (the `exp_base` given to `wait_exponential`). -/
def BACKOFF_MULTIPLIER : Nat := 2

/-- `HTTP_STATUS_RATE_LIMITED`. -/
def HTTP_STATUS_RATE_LIMITED : Nat := 429

/-- `ERROR_MESSAGE_UNAUTHORIZED`. -/
def ERROR_MESSAGE_UNAUTHORIZED : String := "Unable to connect to the service. Please contact support."

/-- `ERROR_MESSAGE_RATE_LIMITED`. -/
def ERROR_MESSAGE_RATE_LIMITED : String := "Please wait a moment before sending another message."

/-- An `SSEEvent` as the client yields it: the `event:` type and the
message/content drawn from its data payload. -/
structure ClientEvent where
  type : String
  message : String
deriving Repr, DecidableEq

/-- The exceptions `stream_chat` can see from `_fetch_events`:
`_RETRYABLE_EXCEPTIONS = (httpx.ConnectError, httpx.ReadError,
httpx.TimeoutException)`, the client's own `_RetryableHTTPError`, and any
other exception (uncaught by the loop). -/
inductive SseExc where
| connectError
| readError
| timeoutExc
| retryableHTTP (statusCode : Nat)
| otherExc
deriving Repr, DecidableEq

/-- Membership in `(*_RETRYABLE_EXCEPTIONS, _RetryableHTTPError)` — both
the retryer's `retry_if_exception_type` tuple and the loop's `except`
clauses use exactly this set. -/
def isRetryableExc : SseExc → Bool
| .connectError => true
| .readError => true
| .timeoutExc => true
| .retryableHTTP _ => true
| .otherExc => false

/-- What one `__anext__` of the retryer does, as a function of the
recorded state. -/
inductive TenacityAction where
| doAttempt
| doSleep (seconds : Rat)
| raiseReraise (exc : SseExc)
| raiseRetryError
deriving Repr, DecidableEq

/-- `tenacity.BaseRetrying.iter` as driven by `AsyncRetrying.__anext__`,
for the `stream_chat` retryer (`stop_after_attempt(max_retries)`,
`wait_exponential(multiplier=retry_delay, exp_base=BACKOFF_MULTIPLIER)`,
`retry_if_exception_type` over the retryable set, `reraise=False`): with
no recorded outcome it yields a new attempt at once; with a recorded
failure it re-raises a non-retryable exception, raises `RetryError` once
`attempt_number` reaches the stop bound, and otherwise sleeps
`multiplier * exp_base^(attempt_number - 1)` before the next attempt. -/
def sseRetryerStep (outcome : Option SseExc) (attemptNumber maxRetries : Nat)
    (retryDelay : Rat) : TenacityAction :=
  match outcome with
  | none => .doAttempt
  | some exc =>
    if !isRetryableExc exc then .raiseReraise exc
    else if maxRetries ≤ attemptNumber then .raiseRetryError
    else .doSleep (retryDelay * (BACKOFF_MULTIPLIER : Rat) ^ (attemptNumber - 1))

/-- Outcome of one `_fetch_events` attempt as `stream_chat` observes it:
a normally-completed event generator, or an exception after some events
were already yielded through to the consumer. -/
inductive FetchOutcome where
| ok (events : List ClientEvent)
| fail (exc : SseExc) (yieldedBefore : List ClientEvent)
deriving Repr, DecidableEq

/-- Result of running `stream_chat` against a finite trace of attempt
outcomes: the generator returned after a successful attempt, an uncaught
exception escaped, or the trace ran out with the loop still going
(`pending` — the loop cannot stop by itself, because the retryer never
sees an outcome and so never sleeps, never stops, and never raises
`StopAsyncIteration`). Each result carries the events yielded so far, the
number of attempts made, and the total sleep inserted by the retryer. -/
inductive StreamChatResult where
| finished (events : List ClientEvent) (attempts : Nat) (totalWait : Rat)
| raised (exc : SseExc) (events : List ClientEvent) (attempts : Nat) (totalWait : Rat)
| pending (events : List ClientEvent) (attempts : Nat) (totalWait : Rat)
deriving Repr, DecidableEq

/-- The `while True` loop of `stream_chat`. Each iteration awaits
`retry_iterator.__anext__()`; since the `AttemptManager` is discarded,
`retry_state.outcome` is still `None` there, so the step always yields
`DoAttempt` with no sleep (the other `TenacityAction` branches are
written out but unreachable from this call site). -/
def streamChatGo (retryDelay : Rat) (maxRetries : Nat) :
    List FetchOutcome → Nat → List ClientEvent → Rat → StreamChatResult
| [], attempts, acc, w => .pending acc attempts w
| o :: rest, attempts, acc, w =>
  match sseRetryerStep none (attempts + 1) maxRetries retryDelay with
  | .doAttempt =>
    match o with
    | .ok evs => .finished (acc ++ evs) (attempts + 1) w
    | .fail exc pre =>
      if isRetryableExc exc then
        streamChatGo retryDelay maxRetries rest (attempts + 1) (acc ++ pre) w
      else .raised exc (acc ++ pre) (attempts + 1) w
  | .doSleep s => .pending acc attempts (w + s)
  | .raiseReraise exc => .raised exc acc attempts w
  | .raiseRetryError => .raised .otherExc acc attempts w

/-- `SSEClient.stream_chat` over a trace of `_fetch_events` outcomes. -/
def stream_chat (retryDelay : Rat) (maxRetries : Nat)
    (outcomes : List FetchOutcome) : StreamChatResult :=
  streamChatGo retryDelay maxRetries outcomes 0 [] 0

/-- `httpx.Response.is_success`: a 2xx status. -/
def isSuccessStatus (status : Nat) : Bool := 200 ≤ status && status ≤ 299

/-- The status handling at the head of `_fetch_events`: 2xx streams the
parsed body events; 401/403 and 429 yield a single classified `error`
event and return; any other non-success status raises
`_RetryableHTTPError(status)` before anything is yielded. -/
def fetchEventsOutcome (status : Nat) (bodyEvents : List ClientEvent) : FetchOutcome :=
  if isSuccessStatus status then .ok bodyEvents
  else if status == 401 || status == 403 then
    .ok [{ type := "error", message := ERROR_MESSAGE_UNAUTHORIZED }]
  else if status == HTTP_STATUS_RATE_LIMITED then
    .ok [{ type := "error", message := ERROR_MESSAGE_RATE_LIMITED }]
  else .fail (.retryableHTTP status) []

/-- Events carried by a `StreamChatResult`. -/
def resultEvents : StreamChatResult → List ClientEvent
| .finished evs _ _ => evs
| .raised _ evs _ _ => evs
| .pending evs _ _ => evs

/-- Attempts made in a `StreamChatResult`. -/
def resultAttempts : StreamChatResult → Nat
| .finished _ a _ => a
| .raised _ _ a _ => a
| .pending _ a _ => a

/-- Total retry sleep recorded in a `StreamChatResult`. -/
def resultTotalWait : StreamChatResult → Rat
| .finished _ _ w => w
| .raised _ _ _ w => w
| .pending _ _ w => w

/-- Whether an `error` event occurs in a client event list. -/
def hasErrorEvent (evs : List ClientEvent) : Bool := evs.any (fun e => e.type == "error")

/-! ## `tools/stock/client.py` and `tools/weather/client.py` `_make_request`

Both clients use the supported `async for attempt in AsyncRetrying(...)`
/ `with attempt:` pattern, so outcomes are recorded — but they pass
`retry=lambda exc: isinstance(exc, httpx.TimeoutException)`. tenacity
invokes the retry callback with its `RetryCallState`, never with the
exception, so the `isinstance` test is made against the state object and
is false for every outcome. -/

/-- Exceptions a request attempt can raise. -/
inductive PyExcKind where
| timeoutException
| httpStatusErrorExc (statusCode : Nat)
| otherException
deriving Repr, DecidableEq

/-- A Python object as it reaches the retry callback: tenacity passes its
`RetryCallState`; an exception object would be a different value. -/
inductive PyCallbackArg where
| retryCallState (attemptNumber : Nat) (outcome : Option PyExcKind)
| exceptionValue (exc : PyExcKind)
deriving Repr, DecidableEq

/-- `isinstance(x, httpx.TimeoutException)`. -/
def pyIsInstanceTimeoutException : PyCallbackArg → Bool
| .exceptionValue .timeoutException => true
| _ => false

/-- The clients' retry argument,
`lambda exc: isinstance(exc, httpx.TimeoutException)`, as tenacity calls
it. -/
def clientRetryCallback (arg : PyCallbackArg) : Bool := pyIsInstanceTimeoutException arg

/-- `MAX_RETRIES` of the tool clients. -/
def MAX_RETRIES : Nat := 3

/-- `INITIAL_RETRY_DELAY_SECONDS` of the tool clients (the
`wait_exponential` multiplier; its `exp_base` is the default `2`). -/
def INITIAL_RETRY_DELAY_SECONDS : Rat := 1

/-- One attempt of the HTTP request inside `with attempt:`. -/
inductive RequestAttempt where
| ok (responseJson : String)
| raiseExc (exc : PyExcKind)
deriving Repr, DecidableEq

/-- Result of `_make_request` on a trace of attempt outcomes. -/
inductive RequestResult where
| returned (responseJson : String) (attempts : Nat) (totalWait : Rat)
| raised (exc : PyExcKind) (attempts : Nat) (totalWait : Rat)
| pending (attempts : Nat) (totalWait : Rat)
deriving Repr, DecidableEq

/-- The `async for attempt in AsyncRetrying(...)` loop of `_make_request`
(`completed` counts finished attempts, so the current `attempt_number` is
`completed + 1`): a successful attempt returns from inside the loop; on a
recorded exception the next `__anext__` consults the retry callback with
the `RetryCallState` — the callback yields `False` for every exception,
so `fut.result()` re-raises it at once. The retry branch (stop bound,
then `wait_exponential` sleep of `1 * 2^(attempt_number - 1)`) is written
out as tenacity would run it, but the callback never selects it. -/
def makeRequestGo : List RequestAttempt → Nat → Rat → RequestResult
| [], completed, w => .pending completed w
| .ok r :: _, completed, w => .returned r (completed + 1) w
| .raiseExc exc :: rest, completed, w =>
  if clientRetryCallback (.retryCallState (completed + 1) (some exc)) then
    if MAX_RETRIES ≤ completed + 1 then .raised exc (completed + 1) w
    else makeRequestGo rest (completed + 1)
      (w + INITIAL_RETRY_DELAY_SECONDS * (2 : Rat) ^ completed)
  else .raised exc (completed + 1) w

/-- `_make_request` over a trace of attempt outcomes. -/
def make_request (attempts : List RequestAttempt) : RequestResult :=
  makeRequestGo attempts 0 0

/-! ## `agent/workers/weather_worker.py` -/

/-- A message of the worker agent's result state. -/
structure WorkerMessage where
  content : String
deriving Repr, DecidableEq

/-- Outcome of `weather_worker.ainvoke(...)` under its recursion limit:
a completed run with its messages; a `GraphRecursionError` when the limit
is exceeded (the partial messages accumulated in the run are not part of
the exception and are lost to the caller); or any other exception. -/
inductive WorkerRunOutcome where
| completes (messages : List WorkerMessage)
| recursionLimitExceeded (draftMessages : List WorkerMessage)
| raisesOther
deriving Repr, DecidableEq

/-- The no-messages fallback string of `ask_weather_agent`. -/
def weatherAgentEmptyMessage : String :=
  "I couldn\x27t retrieve weather information right now. Please try again."

/-- The `except Exception` fallback string of `ask_weather_agent`. -/
def weatherAgentErrorMessage : String :=
  "I encountered an issue processing your weather request. Please try again."

/-- `recursion_limit = (settings.worker_max_iterations * 2) + 1`. -/
def worker_recursion_limit (workerMaxIterations : Nat) : Nat :=
  workerMaxIterations * 2 + 1

/-- `ask_weather_agent`: the last message's content on completion, a fixed
fallback when the result has no messages, and the fixed `except`
fallback for any exception — including the recursion-limit hard stop. -/
def ask_weather_agent (run : WorkerRunOutcome) : String :=
  match run with
  | .completes msgs =>
    match msgs.getLast? with
    | some m => m.content
    | none => weatherAgentEmptyMessage
  | .recursionLimitExceeded _ => weatherAgentErrorMessage
  | .raisesOther => weatherAgentErrorMessage

/-- The best-effort draft text a worker run has produced so far (the last
accumulated message), for stating what the spec expects of the
recursion-limit stop. -/
def workerDraftText (run : WorkerRunOutcome) : String :=
  match run with
  | .completes msgs => (msgs.getLast?.map WorkerMessage.content).getD ""
  | .recursionLimitExceeded draft => (draft.getLast?.map WorkerMessage.content).getD ""
  | .raisesOther => ""

/-! ## Derived observations used in theorem statements -/

/-- Number of `fabricated_citation` findings recorded for a given phrase. -/
def countFabricated (findings : List Finding) (phrase : String) : Nat :=
  findings.count (Finding.fabricatedCitation phrase)

/-- Lookup in the extracted tool-result dict. -/
def lookupStr (d : List (String × String)) (k : String) : Option String :=
  (d.find? (fun p => p.1 == k)).map Prod.snd

/-! ## Theorems -/

/-- C1: for every tool call wrapped by the middleware pipeline, a raising
terminal handler is answered by a `ToolResultMessage` whose content is
exactly the fixed per-tool string (with the service resolved from the
tool's name through `TOOL_SERVICE_NAMES`) and whose `tool_call_id` is the
original call's id; a non-raising handler's result is forwarded
unchanged, and the wrapper itself — being a total function into
`ToolMessageData` — never lets a tool exception propagate. -/
theorem c1_tool_error_translation :
    (∀ req m, tool_error_handler req (Except.ok m) = m)
    ∧ (∀ req e, tool_error_handler req (Except.error e) =
        { content := toolErrorMessage (lookupDefault TOOL_SERVICE_NAMES req.toolName req.toolName),
          toolCallId := req.callId })
    ∧ (∀ s, toolErrorMessage s =
        "I\x27m having trouble accessing " ++ s ++ " right now. Please try again.")
    ∧ lookupDefault TOOL_SERVICE_NAMES "get_weather" "get_weather" = "weather data"
    ∧ lookupDefault TOOL_SERVICE_NAMES "get_stock_price" "get_stock_price" = "stock market data"
    ∧ lookupDefault TOOL_SERVICE_NAMES "search_knowledge" "search_knowledge" = "search_knowledge" :=
  ⟨fun _ _ => rfl, fun _ _ => rfl, fun _ => rfl, rfl, rfl, rfl⟩

/-- C2 counterexample: when the stock fetch raises `httpx.HTTPStatusError`
with status 500, the error string `get_stock_price` returns contains the
raw transport error code `500` — the claim asserts such content never
contains a raw transport error code. -/
theorem c2_counterexample_status_code :
    strHas (get_stock_price true "AAPL" (StockFetchOutcome.httpStatusError 500)) "500" = true := by
  decide

/-- C2 amended: every failing stock-tool invocation returns one of the
fixed user-safe strings, which contain no exception text and no
"Timeout"/"ConnectionRefused" markers — except that on an upstream HTTP
status error the numeric status code itself is embedded in the fixed
`"Stock service error: {code}"` template. -/
theorem c2_amended_error_strings :
    (∀ t, get_stock_price true t StockFetchOutcome.timeoutError =
      "\x7b\"error\": \"Stock service unavailable. Please try again.\"\x7d")
    ∧ (∀ t, get_stock_price true t StockFetchOutcome.otherError =
      "\x7b\"error\": \"Failed to retrieve stock data.\"\x7d")
    ∧ (∀ t, get_stock_price true t StockFetchOutcome.invalidTicker =
      "\x7b\"error\": \"Invalid ticker: " ++ t ++ "\"\x7d")
    ∧ (∀ t code, get_stock_price true t (StockFetchOutcome.httpStatusError code) =
      "\x7b\"error\": \"Stock service error: " ++ toString code ++ "\"\x7d")
    ∧ strHas "\x7b\"error\": \"Stock service unavailable. Please try again.\"\x7d" "Timeout" = false
    ∧ strHas "\x7b\"error\": \"Stock service unavailable. Please try again.\"\x7d" "ConnectionRefused" = false
    ∧ strHas "\x7b\"error\": \"Failed to retrieve stock data.\"\x7d" "Timeout" = false
    ∧ strHas "\x7b\"error\": \"Failed to retrieve stock data.\"\x7d" "ConnectionRefused" = false :=
  ⟨fun _ => rfl, fun _ => rfl, fun _ => rfl, fun _ _ => rfl,
   by decide, by decide, by decide, by decide⟩

/-- C7: evaluating the tool clients' `_make_request` on a trace whose
first attempt raises a timeout and whose second attempt would succeed:
the timeout is re-raised after exactly one attempt with zero backoff —
tenacity hands the retry callback its `RetryCallState`, for which the
`isinstance` test yields `False` — so, contrary to the claim, transient
timeouts are never retried; in fact every exception propagates after a
single attempt. -/
theorem c7_make_request_never_retries :
    make_request [RequestAttempt.raiseExc PyExcKind.timeoutException, RequestAttempt.ok "\x7b\x7d"]
      = RequestResult.raised PyExcKind.timeoutException 1 0
    ∧ clientRetryCallback (PyCallbackArg.retryCallState 1 (some PyExcKind.timeoutException)) = false
    ∧ (∀ exc rest, make_request (RequestAttempt.raiseExc exc :: rest)
        = RequestResult.raised exc 1 0) :=
  ⟨rfl, rfl, fun _ _ => rfl⟩

/-- C8 counterexample: a worker run that hits the recursion bound with a
partial answer accumulated does not return that partial text — the claim
says the best-effort partial text is returned, but `ask_weather_agent`
answers the `GraphRecursionError` with its fixed fallback string. -/
theorem c8_counterexample_no_draft_text :
    ask_weather_agent (WorkerRunOutcome.recursionLimitExceeded
        [{ content := "Location: Montevideo, UY | Temperature: 20" }])
      = weatherAgentErrorMessage
    ∧ ask_weather_agent (WorkerRunOutcome.recursionLimitExceeded
        [{ content := "Location: Montevideo, UY | Temperature: 20" }])
      ≠ workerDraftText (WorkerRunOutcome.recursionLimitExceeded
        [{ content := "Location: Montevideo, UY | Temperature: 20" }]) :=
  ⟨rfl, by decide⟩

/-- C8 amended: the worker reasoning loop is bounded (the invocation's
recursion limit is `2 * max_iterations + 1`), and when the bound is
exceeded the worker tool does not raise — it returns the fixed user-safe
fallback message, not the partial text produced so far. -/
theorem c8_amended_hard_stop :
    (∀ n, worker_recursion_limit n = 2 * n + 1)
    ∧ (∀ draft, ask_weather_agent (WorkerRunOutcome.recursionLimitExceeded draft)
        = weatherAgentErrorMessage) :=
  ⟨fun n => by simp [worker_recursion_limit, Nat.mul_comm], fun _ => rfl⟩

/-- Helper: `output_guardrails` returns `None` on every input. -/
theorem output_guardrails_eq_none (messages : List Msg) :
    output_guardrails messages = none := by
  unfold output_guardrails
  cases hl : messages.getLast? with
  | none => rfl
  | some m => cases m <;> simp

/-- Helper: `knowledge_guardrails` returns `None` on every input. -/
theorem knowledge_guardrails_eq_none (messages : List Msg) :
    knowledge_guardrails messages = none := by
  unfold knowledge_guardrails
  cases hl : messages.getLast? with
  | none => rfl
  | some m => cases m <;> simp

/-- C3: for every agent state, the output guardrails and the knowledge
(citation) guardrails return no state update in any branch, so applying
either `after_model` hook leaves the message state — and with it the
assistant's text — exactly as it was; findings are only logged. -/
theorem c3_guardrails_never_mutate (messages : List Msg) :
    output_guardrails messages = none
    ∧ knowledge_guardrails messages = none
    ∧ runAfterModelHook output_guardrails messages = messages
    ∧ runAfterModelHook knowledge_guardrails messages = messages := by
  refine ⟨output_guardrails_eq_none messages, knowledge_guardrails_eq_none messages, ?_, ?_⟩
  · unfold runAfterModelHook
    rw [output_guardrails_eq_none]
  · unfold runAfterModelHook
    rw [knowledge_guardrails_eq_none]

/-- Helper: membership in a `catMap` comes from membership in one piece. -/
theorem mem_catMap {f : α → List β} {b : β} :
    ∀ {l : List α}, b ∈ catMap f l → ∃ a, a ∈ l ∧ b ∈ f a := by
  intro l
  induction l with
  | nil => intro h; exact absurd h (by simp [catMap])
  | cons x xs ih =>
    intro h
    rw [catMap, List.mem_append] at h
    rcases h with h | h
    · exact ⟨x, by simp, h⟩
    · rcases ih h with ⟨a, ha, hb⟩
      exact ⟨a, by simp [ha], hb⟩

/-- Helper: `eventsOfUpdate` yields only `tool_result` events. -/
theorem eventsOfUpdate_nonterminal (su : String × List UpdateMsg) :
    ∀ e ∈ eventsOfUpdate su, isTerminalEvent e = false := by
  intro e he
  unfold eventsOfUpdate at he
  split at he
  · rcases mem_catMap he with ⟨m, _, hm⟩
    split at hm
    · simp at hm
      subst hm
      rfl
    · exact absurd hm (by simp)
  · exact absurd he (by simp)

/-- Helper: a stream chunk never yields a terminal event. -/
theorem eventsOfChunk_nonterminal (c : StreamChunk) :
    ∀ e ∈ eventsOfChunk c, isTerminalEvent e = false := by
  intro e he
  cases c with
  | messagesChunk isAI content toolCalls =>
    simp only [eventsOfChunk] at he
    split at he
    · simp at he
    · rw [List.mem_append] at he
      rcases he with he | he
      · split at he
        · simp at he
          subst he
          rfl
        · simp at he
      · rcases List.mem_map.mp he with ⟨tc, _, htc⟩
        subst htc
        rfl
  | updatesChunk updates =>
    simp only [eventsOfChunk] at he
    rcases mem_catMap he with ⟨su, _, hsu⟩
    exact eventsOfUpdate_nonterminal su e hsu

/-- Helper: appending a single terminal event to a terminal-free body
gives a well-terminated stream. -/
theorem oneTerminalAtEnd_append (body : List SEvent) (t : SEvent)
    (hb : ∀ e ∈ body, isTerminalEvent e = false) :
    oneTerminalAtEnd (body ++ [t]) = isTerminalEvent t := by
  induction body with
  | nil => rfl
  | cons e rest ih =>
    have he : isTerminalEvent e = false := hb e (by simp)
    have hrest : ∀ x ∈ rest, isTerminalEvent x = false := fun x hx => hb x (by simp [hx])
    have hih := ih hrest
    cases rest with
    | nil => simp [oneTerminalAtEnd, he, hih]
    | cons b bs =>
      simp only [List.cons_append, oneTerminalAtEnd, he] at hih ⊢
      simp [hih]

/-- C4: every chat stream the handler produces ends in exactly one
terminal event — `done` when the agent stream completes, the fixed
`error` event when an exception interrupts the handler at any point — and
no `token`/`tool_call`/`tool_result` event follows the terminal event. -/
theorem c4_exactly_one_terminal_event (chunks : List StreamChunk)
    (failAfterChunks : Option Nat) :
    oneTerminalAtEnd (chatStreamHandle chunks failAfterChunks) = true := by
  cases failAfterChunks with
  | none =>
    unfold chatStreamHandle
    rw [oneTerminalAtEnd_append]
    · rfl
    · intro e he
      rcases mem_catMap he with ⟨c, _, hc⟩
      exact eventsOfChunk_nonterminal c e hc
  | some k =>
    unfold chatStreamHandle
    rw [oneTerminalAtEnd_append]
    · rfl
    · intro e he
      rcases mem_catMap he with ⟨c, _, hc⟩
      exact eventsOfChunk_nonterminal c e hc

/-- Helper: with no recorded outcome the retryer immediately yields a new
attempt (the situation `stream_chat` is permanently in). -/
theorem sseRetryerStep_none (n m : Nat) (d : Rat) :
    sseRetryerStep none n m d = TenacityAction.doAttempt := rfl

/-- C5: evaluating `stream_chat` (default settings: max retries 3, delay
1, backoff multiplier 2) on the claim's trace — three network-connect
failures followed by a success. No `error` event is emitted, but the
total wait inserted before the successful attempt is `0`, strictly below
the `delay*(1 + multiplier + multiplier^2)` bound the claim asserts: the
loop never enters the `AttemptManager` it gets from `__anext__`, so the
retryer never records an outcome, never sleeps and never enforces its
attempt bound. -/
theorem c5_backoff_not_inserted :
    stream_chat 1 3 [FetchOutcome.fail SseExc.connectError [],
        FetchOutcome.fail SseExc.connectError [], FetchOutcome.fail SseExc.connectError [],
        FetchOutcome.ok [{ type := "done", message := "" }]]
      = StreamChatResult.finished [{ type := "done", message := "" }] 4 0
    ∧ hasErrorEvent (resultEvents (stream_chat 1 3 [FetchOutcome.fail SseExc.connectError [],
        FetchOutcome.fail SseExc.connectError [], FetchOutcome.fail SseExc.connectError [],
        FetchOutcome.ok [{ type := "done", message := "" }]])) = false
    ∧ resultTotalWait (stream_chat 1 3 [FetchOutcome.fail SseExc.connectError [],
        FetchOutcome.fail SseExc.connectError [], FetchOutcome.fail SseExc.connectError [],
        FetchOutcome.ok [{ type := "done", message := "" }]])
      < 1 * (1 + (BACKOFF_MULTIPLIER : Rat) + (BACKOFF_MULTIPLIER : Rat) ^ 2) := by
  refine ⟨rfl, rfl, ?_⟩
  have h : resultTotalWait (stream_chat 1 3 [FetchOutcome.fail SseExc.connectError [],
      FetchOutcome.fail SseExc.connectError [], FetchOutcome.fail SseExc.connectError [],
      FetchOutcome.ok [{ type := "done", message := "" }]]) = 0 := rfl
  rw [h]
  norm_num [BACKOFF_MULTIPLIER]

/-- Helper: the attempt counter of the stream-chat loop never drops below
its starting value. -/
theorem streamChatGo_attempts_le (d : Rat) (m : Nat) :
    ∀ (l : List FetchOutcome) (a : Nat) (acc : List ClientEvent) (w : Rat),
      a ≤ resultAttempts (streamChatGo d m l a acc w) := by
  intro l
  induction l with
  | nil => intro a acc w; exact Nat.le_refl a
  | cons o rest ih =>
    intro a acc w
    simp only [streamChatGo, sseRetryerStep_none]
    cases o with
    | ok evs => exact Nat.le_succ a
    | fail exc pre =>
      by_cases hr : isRetryableExc exc = true
      · simp only [hr, if_true]
        exact Nat.le_trans (Nat.le_succ a) (ih (a + 1) (acc ++ pre) w)
      · simp only [hr, if_false]
        exact Nat.le_succ a

/-- Helper: consuming the head of a non-empty trace makes at least one
attempt beyond the starting count. -/
theorem streamChatGo_attempts_cons (d : Rat) (m : Nat) (o : FetchOutcome)
    (rest : List FetchOutcome) (a : Nat) (acc : List ClientEvent) (w : Rat) :
    a + 1 ≤ resultAttempts (streamChatGo d m (o :: rest) a acc w) := by
  simp only [streamChatGo, sseRetryerStep_none]
  cases o with
  | ok evs => exact Nat.le_refl (a + 1)
  | fail exc pre =>
    by_cases hr : isRetryableExc exc = true
    · simp only [hr, if_true]
      exact streamChatGo_attempts_le d m rest (a + 1) (acc ++ pre) w
    · simp only [hr, if_false]
      exact Nat.le_refl (a + 1)

/-- C6: the streaming client's loop re-attempts only on the retryable
exception set (network-connect, read errors, timeouts, retryable upstream
statuses): an authentication status (401/403) or the rate-limit status
(429) yields exactly one classified `error` event with one attempt and no
wait, and a second attempt is made precisely when the first outcome is a
retryable failure. -/
theorem c6_terminal_statuses_not_retried :
    (∀ (d : Rat) (body : List ClientEvent) (rest : List FetchOutcome),
      stream_chat d 3 (fetchEventsOutcome 401 body :: rest)
        = StreamChatResult.finished [{ type := "error", message := ERROR_MESSAGE_UNAUTHORIZED }] 1 0)
    ∧ (∀ (d : Rat) (body : List ClientEvent) (rest : List FetchOutcome),
      stream_chat d 3 (fetchEventsOutcome 403 body :: rest)
        = StreamChatResult.finished [{ type := "error", message := ERROR_MESSAGE_UNAUTHORIZED }] 1 0)
    ∧ (∀ (d : Rat) (body : List ClientEvent) (rest : List FetchOutcome),
      stream_chat d 3 (fetchEventsOutcome 429 body :: rest)
        = StreamChatResult.finished [{ type := "error", message := ERROR_MESSAGE_RATE_LIMITED }] 1 0)
    ∧ (∀ (d : Rat) (o : FetchOutcome) (rest : List FetchOutcome), rest ≠ [] →
      (2 ≤ resultAttempts (stream_chat d 3 (o :: rest)) ↔
        ∃ exc pre, o = FetchOutcome.fail exc pre ∧ isRetryableExc exc = true)) := by
  refine ⟨fun d body rest => rfl, fun d body rest => rfl, fun d body rest => rfl, ?_⟩
  intro d o rest hne
  cases o with
  | ok evs =>
    constructor
    · intro h
      simp only [stream_chat, streamChatGo, sseRetryerStep_none, resultAttempts] at h
      omega
    · rintro ⟨exc, pre, heq, _⟩
      exact absurd heq (by simp)
  | fail exc pre =>
    by_cases hr : isRetryableExc exc = true
    · constructor
      · intro _
        exact ⟨exc, pre, rfl, hr⟩
      · intro _
        cases rest with
        | nil => exact absurd rfl hne
        | cons r rs =>
          unfold stream_chat
          simp only [streamChatGo, sseRetryerStep_none, hr, if_true]
          exact streamChatGo_attempts_cons d 3 r rs 1 ([] ++ pre) 0
    · constructor
      · intro h
        unfold stream_chat at h
        simp [streamChatGo, sseRetryerStep_none, hr, resultAttempts] at h
      · rintro ⟨exc2, pre2, heq, hr2⟩
        cases heq
        exact absurd hr2 hr

/-- C6 witness: a retryable connect failure followed by a success makes a
second attempt; instantiates the classification theorem at a concrete
trace. -/
theorem c6_witness :
    2 ≤ resultAttempts (stream_chat 1 3
      [FetchOutcome.fail SseExc.connectError [], FetchOutcome.ok []]) := by
  have h := c6_terminal_statuses_not_retried.2.2.2 1 (FetchOutcome.fail SseExc.connectError [])
    [FetchOutcome.ok []] (by decide)
  exact h.mpr ⟨SseExc.connectError, [], rfl, rfl⟩

/-- Helper: counting a tagged phrase through the `fabricated_citation`
constructor counts the phrase itself. -/
theorem fab_count_map (l : List String) (p : String) :
    List.count (Finding.fabricatedCitation p) (l.map (fun m => Finding.fabricatedCitation m))
      = List.count p l := by
  have h := List.count_map_of_injective (β := Finding) l
    (fun m => Finding.fabricatedCitation m) (fun a b hab => by simpa using hab) p
  simpa using h

/-- Helper: counting inside a `filter` either keeps the full count (the
element passes the predicate) or drops to zero. -/
theorem count_filter_toggle (c : String → Bool) (p : String) :
    ∀ l : List String, List.count p (l.filter c) = if c p = true then List.count p l else 0 := by
  intro l
  induction l with
  | nil => cases hc : c p <;> simp [hc]
  | cons x xs ih =>
    by_cases hx : x = p
    · subst hx
      cases hc : c x with
      | true => simp [List.filter_cons, hc, List.count_cons, ih]
      | false => simp [List.filter_cons, hc, List.count_cons, ih]
    · cases hc : c x with
      | true => simp [List.filter_cons, hc, List.count_cons, ih, hx]
      | false => simp [List.filter_cons, hc, List.count_cons, ih, hx]

/-- Helper: each phrase occurs exactly once in the fixed indicator list. -/
theorem count_titleIndicators (p : String) (hp : p ∈ titleIndicators) :
    List.count p titleIndicators = 1 :=
  List.count_eq_one_of_mem (by decide) hp

/-- C9: when the turn's knowledge tool results contain chunks with at
least one document title, each known document-title phrase present in the
(lowercased) response that fuzzy-matches no retrieved title is recorded
as exactly one `fabricated_citation` finding, and a phrase that does
fuzzy-match (substring in either direction) a retrieved title produces no
finding. -/
theorem c9_fabricated_citation_exactness (resp p : String)
    (results : List (List (String × JValue)))
    (hp : p ∈ titleIndicators)
    (hne : retrievedTitles results ≠ []) :
    countFabricated (check_for_fabricated_citations resp results) p
      = if strHas resp p && !fuzzyKnown p (retrievedTitles results) then 1 else 0 := by
  have hkE : (retrievedTitles results).isEmpty = false := by
    cases h : retrievedTitles results with
    | nil => exact absurd h hne
    | cons a as => rfl
  simp only [check_for_fabricated_citations, countFabricated,
    extract_document_titles_from_response]
  rw [fab_count_map]
  rw [count_filter_toggle]
  rw [count_filter_toggle]
  rw [count_titleIndicators p hp]
  cases hf : fuzzyKnown p (retrievedTitles results) <;>
    cases hs : strHas resp p <;> simp [hf, hs, hkE]

/-- C9 witness: one retrieved title, a response naming a different known
document-title phrase — exactly one `fabricated_citation` finding. -/
theorem c9_witness :
    countFabricated (check_for_fabricated_citations
      "see the fintech regulation document"
      [[("chunks", JValue.jarr [JValue.jobj
          [("document_title", JValue.jstr "Historia de VeraMoney"),
           ("page_number", JValue.jnum (pnInt 3))]])]])
      "fintech regulation" = 1 := by
  have h := c9_fabricated_citation_exactness "see the fintech regulation document"
    "fintech regulation"
    [[("chunks", JValue.jarr [JValue.jobj
        [("document_title", JValue.jstr "Historia de VeraMoney"),
         ("page_number", JValue.jnum (pnInt 3))]])]]
    (by decide) (by decide)
  rw [h]
  decide

/-- Helper: a second insert on the same key supersedes the first. -/
theorem dictInsert_overwrite (k v1 v2 : String) :
    ∀ d, dictInsert k v2 (dictInsert k v1 d) = dictInsert k v2 d := by
  intro d
  induction d with
  | nil => simp [dictInsert]
  | cons kv rest ih =>
    by_cases hk : (kv.1 == k) = true
    · simp [dictInsert, hk]
    · simp [dictInsert, hk, ih]

/-- Helper: looking up an inserted key finds the inserted value. -/
theorem lookupStr_dictInsert (k v : String) :
    ∀ d, lookupStr (dictInsert k v d) k = some v := by
  intro d
  induction d with
  | nil => simp [dictInsert, lookupStr, List.find?]
  | cons kv rest ih =>
    by_cases hk : (kv.1 == k) = true
    · simp [dictInsert, hk, lookupStr, List.find?]
    · rw [dictInsert, if_neg hk]
      simpa [lookupStr, List.find?, hk] using ih

/-- C10 (implicit): when a turn holds several stock `ToolResultMessage`s,
the extraction dict keeps only the latest one — the findings computed by
the numeric output guardrail are independent of any earlier same-tool
result — and the guardrail compares only the single leftmost numeric
value its price patterns find in the response, as the concrete instances
show: the first dollar amount is extracted even when a later amount
mismatches, and no finding results when that first amount agrees with the
latest tool result. -/
theorem c10_latest_stock_result_only (ms : List Msg) (c1 c1' c2 resp : String) :
    lookupStr (extract_tool_results (ms ++ [Msg.toolMsg (some "get_stock_price") c1,
        Msg.toolMsg (some "get_stock_price") c2])) "get_stock_price" = some c2
    ∧ outputGuardrailFindings (ms ++ [Msg.toolMsg (some "get_stock_price") c1,
        Msg.toolMsg (some "get_stock_price") c2, Msg.ai resp])
      = outputGuardrailFindings (ms ++ [Msg.toolMsg (some "get_stock_price") c1',
        Msg.toolMsg (some "get_stock_price") c2, Msg.ai resp])
    ∧ (findPriceInText "the price is $150.00 and later $999.99").map
        (fun v => pnEqB v (pnInt 150)) = some true
    ∧ outputGuardrailFindings
        [Msg.toolMsg (some "get_stock_price") "\x7b\"price\": 999.99\x7d",
         Msg.toolMsg (some "get_stock_price") "\x7b\"price\": 150.0\x7d",
         Msg.ai "The price is $150.00 and later $999.99."] = [] := by
  refine ⟨?_, ?_, by decide, by decide⟩
  · have hstep : extract_tool_results (ms ++ [Msg.toolMsg (some "get_stock_price") c1,
        Msg.toolMsg (some "get_stock_price") c2])
        = dictInsert "get_stock_price" c2 (extract_tool_results ms) := by
      unfold extract_tool_results
      rw [List.foldl_append]
      exact dictInsert_overwrite "get_stock_price" c1 c2 _
    rw [hstep]
    exact lookupStr_dictInsert "get_stock_price" c2 _
  · have h1 : extract_tool_results (ms ++ [Msg.toolMsg (some "get_stock_price") c1,
        Msg.toolMsg (some "get_stock_price") c2, Msg.ai resp])
        = dictInsert "get_stock_price" c2 (extract_tool_results ms) := by
      unfold extract_tool_results
      rw [List.foldl_append]
      exact dictInsert_overwrite "get_stock_price" c1 c2 _
    have h2 : extract_tool_results (ms ++ [Msg.toolMsg (some "get_stock_price") c1',
        Msg.toolMsg (some "get_stock_price") c2, Msg.ai resp])
        = dictInsert "get_stock_price" c2 (extract_tool_results ms) := by
      unfold extract_tool_results
      rw [List.foldl_append]
      exact dictInsert_overwrite "get_stock_price" c1' c2 _
    have hlast : (ms ++ [Msg.toolMsg (some "get_stock_price") c1,
        Msg.toolMsg (some "get_stock_price") c2, Msg.ai resp]).getLast?
        = some (Msg.ai resp) := by
      rw [List.getLast?_append_cons]
      rfl
    have hlast2 : (ms ++ [Msg.toolMsg (some "get_stock_price") c1',
        Msg.toolMsg (some "get_stock_price") c2, Msg.ai resp]).getLast?
        = some (Msg.ai resp) := by
      rw [List.getLast?_append_cons]
      rfl
    simp only [outputGuardrailFindings, hlast, hlast2, h1, h2]
